import Mathlib

/-
Verification of the Stellar contract deployment script
(src/stellar/deploy-contract.js).

The development shallowly embeds the script's data model and operations:
JavaScript native values, the value serializer, typed contract values
(ScVal), the initialization-argument builder, and the deployment
orchestrator.  External collaborators that live outside the embedded file
(wallet provider, domain-separator computation, keccak hashing, the
soroban deploy binary, the broadcast RPC) are modelled as an explicit
environment of functions, and the orchestrator additionally returns a
trace of the external calls it makes, so that properties such as
"the deploy binary is never invoked" are stateable.
-/

set_option maxHeartbeats 1000000

namespace SorobanDeploy

/-- JavaScript native values as they flow through `serializeValue`
(deploy-contract.js lines 82 to 103): byte sequences (Uint8Array or
Buffer), arrays, bigints, plain objects (association lists preserving key
insertion order), and the scalars string, boolean, number, null and
undefined. -/
inductive JsVal where
  | null
  | undef
  | str (s : String)
  | bool (b : Bool)
  | num (n : Int)
  | bigint (n : Int)
  | bytes (bs : List Nat)
  | arr (xs : List JsVal)
  | obj (fields : List (String × JsVal))

/-- The sixteen lowercase hexadecimal digit characters. -/
def hexDigitChars : List Char := "0123456789abcdef".data

/-- The hex digit character for a value below 16. -/
def hexDigit (n : Nat) : Char := hexDigitChars.getD n '0'

/-- Two hex characters of one byte, high nibble first. -/
def byteToHexChars (b : Nat) : List Char := [hexDigit (b / 16), hexDigit (b % 16)]

/-- Model of `Buffer.from(value).toString('hex')`: lowercase hexadecimal,
two characters per byte, in byte order. -/
def bytesToHex (bs : List Nat) : String := String.mk (bs.flatMap byteToHexChars)

mutual

/-- Model of `serializeValue` (deploy-contract.js lines 82 to 103).  The
source checks, in order: `value instanceof Uint8Array` (byte sequences
become hex strings), `Array.isArray(value)` (element-wise recursion),
`typeof value === 'bigint'` (decimal string), `typeof value === 'object'`
(`Object.entries` followed by a reduce rebuilding the object; note that
`null` also has `typeof 'object'` and `Object.entries(null)` throws a
TypeError, modelled by `none`), and otherwise returns the value
unchanged. -/
def serializeValue : JsVal → Option JsVal
  | .null => none
  | .undef => some .undef
  | .str s => some (.str s)
  | .bool b => some (.bool b)
  | .num n => some (.num n)
  | .bigint n => some (.str (toString n))
  | .bytes bs => some (.str (bytesToHex bs))
  | .arr xs =>
    match serializeList xs with
    | some ys => some (.arr ys)
    | none => none
  | .obj kvs =>
    match serializeFields kvs with
    | some ws => some (.obj ws)
    | none => none

/-- `value.map(serializeValue)` on an array: element-wise, propagating a
thrown TypeError. -/
def serializeList : List JsVal → Option (List JsVal)
  | [] => some []
  | x :: xs =>
    match serializeValue x, serializeList xs with
    | some y, some ys => some (y :: ys)
    | _, _ => none

/-- The `Object.entries(value).reduce` loop: serialize every field value,
keeping keys and key order, propagating a thrown TypeError. -/
def serializeFields : List (String × JsVal) → Option (List (String × JsVal))
  | [] => some []
  | (k, v) :: kvs =>
    match serializeValue v, serializeFields kvs with
    | some w, some ws => some ((k, w) :: ws)
    | _, _ => none

end

/-- One weighted signer of the auth-verifier signer set:
`{ signer: <address string>, weight: <integer> }`. -/
structure WeightedSigner where
  signer : String
  weight : Int
  deriving DecidableEq, Repr

/-- The Signer Set passed to `weightedSignersToScVal`
(deploy-contract.js lines 43 to 52):
`{ nonce: <32-byte sequence>, signers: [...], threshold: <integer> }`. -/
structure WeightedSigners where
  nonce : List Nat
  signers : List WeightedSigner
  threshold : Int
  deriving DecidableEq, Repr

/-- Typed contract values (stellar-sdk `ScVal`) as built by the script:
addresses, numbers, byte buffers, vectors, and the converted signer-set
structure. -/
inductive ScVal where
  | address (a : String)
  | num (n : Int)
  | bytes (bs : List Nat)
  | vec (xs : List ScVal)
  | signers (ws : WeightedSigners)

/-- Modelled from the spec: `weightedSignersToScVal` (stellar/type-utils.js,
a file of this repository that is not under src/) converts a Signer Set
into its typed contract value, preserving nonce, signers and threshold
("Signer Set: { nonce: 32-byte sequence, signers: ordered list of
{signer: address, weight: integer}, threshold: integer }"). -/
def weightedSignersToScVal (ws : WeightedSigners) : ScVal := ScVal.signers ws

/-- Native form of one weighted signer. -/
def signerToNative (s : WeightedSigner) : JsVal :=
  .obj [("signer", .str s.signer), ("weight", .num s.weight)]

mutual

/-- Model of the stellar-sdk `scValToNative` at the interface boundary:
an address becomes its string, numbers stay numbers, byte buffers become
byte sequences, vectors become arrays, and the signer-set structure
becomes the corresponding plain object. -/
def scValToNative : ScVal → JsVal
  | .address a => .str a
  | .num n => .num n
  | .bytes bs => .bytes bs
  | .vec xs => .arr (scValListToNative xs)
  | .signers ws =>
    .obj [("nonce", .bytes ws.nonce),
          ("signers", .arr (ws.signers.map signerToNative)),
          ("threshold", .num ws.threshold)]

/-- Element-wise native conversion of a vector. -/
def scValListToNative : List ScVal → List JsVal
  | [] => []
  | x :: xs => scValToNative x :: scValListToNative xs

end

/-- A Contract Record of the registry:
`{ address, deployer, initializeArgs? }` (spec section 3), as written by
`processCommand` lines 128 to 131 and 141. -/
structure ContractRecord where
  address : String
  deployer : String
  initializeArgs : Option (List (String × JsVal)) := none

/-- Chain State: RPC endpoint, network discriminator, and the contract
registry (absent until first ensured), an insertion-ordered mapping from
contract identifier to Contract Record. -/
structure Chain where
  rpc : String := ""
  networkType : String := ""
  contracts : Option (List (String × ContractRecord)) := none

/-- The signing wallet, seen through the only member the script uses,
`wallet.publicKey()`. -/
structure Wallet where
  publicKey : String
  deriving DecidableEq, Repr

/-- The command-line options consumed by the embedded code paths.
`initializeFlag` models the source's `options.initialize` boolean flag
(absent on the command line means false). -/
structure Options where
  privateKey : String := ""
  contractName : String := ""
  wasmPath : String := ""
  initializeFlag : Bool := false
  address : Option String := none
  nonce : Option String := none
  domainSeparator : String := "offline"
  deriving DecidableEq, Repr

/-- The persisted configuration object is never inspected by the embedded
code (it is only forwarded to the external `getDomainSeparator`), so it is
modelled as an abstract token. -/
abbrev Config := Unit

/-- The error taxonomy of the run (spec section 7).  The source throws
plain `Error` values; the constructors record which throw site fired and
its message.  `TypeError` stands for a JavaScript TypeError raised by
reading a property of `null`/`undefined` (reachable in `serializeValue`
on `null`, and in `postDeployGateway` on a missing record). -/
inductive Err where
  | MissingDependency (msg : String)
  | UnknownContract (name : String)
  | DeploymentFailed (msg : String)
  | RemoteCallFailed (msg : String)
  | TypeError (msg : String)

/-- A remote contract invocation as assembled by
`new Contract(address).call(method, ...args)`. -/
structure Operation where
  contractAddress : String
  method : String
  args : List ScVal

/-- Modelled from the spec: the external collaborators of the script that
live in repository files not under src/ or in third-party libraries —
`getWallet` and `getNetworkPassphrase` (stellar/utils.js), `broadcast`
(stellar/utils.js: "broadcast(operation, wallet, chainState, description,
options) → result"), `getDomainSeparator` (common/, "returns a 32-byte
hash, computed either offline or supplied"), the ethers `id` keccak256
hash of a string (32 bytes), and the soroban deploy binary invoked
through `execSync` ("expected to print exactly one line (the deployed
contract address) to standard output on success").  Each is an
uninterpreted function of exactly the data the script passes it. -/
structure Ext where
  getWallet : Chain → Options → Wallet
  getNetworkPassphrase : String → String
  getDomainSeparator : Config → Chain → Options → List Nat
  keccakId : String → List Nat
  keccakLen : ∀ s, (keccakId s).length = 32
  deploy : String → Except String String
  broadcast : Operation → Wallet → Chain → String → Options → Except String Unit

/-- JavaScript truthiness of an optional string: `!x` is true exactly when
the option is absent (undefined) or the string is empty. -/
def strFalsy : Option String → Bool
  | none => true
  | some s => s == ""

/-- The nonce expression of line 41:
`options.nonce ? arrayify(id(options.nonce)) : Array(32).fill(0)`, where
the condition is JavaScript truthiness of the option string and `id` is
the keccak256 hash of the string. -/
def authNonce (ext : Ext) (options : Options) : List Nat :=
  match options.nonce with
  | some s => if s = "" then List.replicate 32 0 else ext.keccakId s
  | none => List.replicate 32 0

/-- Model of `getInitializeArgs` (deploy-contract.js lines 20 to 69).
The result is the ordered argument list paired with the chain state after
the call; the source performs no writes to `chain`, which the returned
state makes explicit.  The nonce branch mirrors the source's
`options.nonce ? arrayify(id(options.nonce)) : Array(32).fill(0)`, where
the condition is JavaScript truthiness of the option string. -/
def getInitializeArgs (ext : Ext) (config : Config) (chain : Chain)
    (contractName : String) (wallet : Wallet) (options : Options) :
    Except Err (List (String × ScVal)) × Chain :=
  let owner := ScVal.address wallet.publicKey
  if contractName = "axelar_gateway" then
    match (chain.contracts.bind fun m => m.lookup "axelar_auth_verifier").map
        ContractRecord.address with
    | none =>
      (.error (.MissingDependency "Missing axelar_auth_verifier contract address"), chain)
    | some authAddress =>
      if authAddress = "" then
        (.error (.MissingDependency "Missing axelar_auth_verifier contract address"), chain)
      else
        (.ok [("authAddress", ScVal.address authAddress), ("owner", owner)], chain)
  else if contractName = "axelar_auth_verifier" then
    let previousSignersRetention := ScVal.num 15
    let domainSeparator := ScVal.bytes (ext.getDomainSeparator config chain options)
    let minimumRotationDelay := ScVal.num 0
    let nonce : List Nat := authNonce ext options
    let initialSigners :=
      ScVal.vec [weightedSignersToScVal
        { nonce := nonce
          signers := [{ signer := wallet.publicKey, weight := 1 }]
          threshold := 1 }]
    (.ok [("owner", owner),
          ("previousSignersRetention", previousSignersRetention),
          ("domainSeparator", domainSeparator),
          ("minimumRotationDelay", minimumRotationDelay),
          ("initialSigners", initialSigners)], chain)
  else if contractName = "axelar_operators" then
    (.ok [("owner", owner)], chain)
  else
    (.error (.UnknownContract contractName), chain)

/-- JavaScript object property assignment `m[k] = v` on an insertion-ordered
association list: an existing key keeps its position and gets the new
value, a new key is appended. -/
def setEntry (m : List (String × ContractRecord)) (k : String) (v : ContractRecord) :
    List (String × ContractRecord) :=
  if m.any fun kv => kv.1 == k then
    m.map fun kv => if kv.1 = k then (k, v) else kv
  else
    m ++ [(k, v)]

/-- The registry read through `chain.contracts`, empty when absent. -/
def Chain.reg (c : Chain) : List (String × ContractRecord) := c.contracts.getD []

/-- `if (!chain.contracts) chain.contracts = {}` (lines 112 to 114). -/
def Chain.ensureContracts (c : Chain) : Chain :=
  if c.contracts.isNone then { c with contracts := some [] } else c

/-- `chain.contracts[contractName] = { address, deployer }` (lines 128
to 131). -/
def Chain.setContract (c : Chain) (name : String) (record : ContractRecord) : Chain :=
  { c with contracts := some (setEntry c.reg name record) }

/-- `chain.contracts[contractName].initializeArgs = serializedArgs`
(line 141): mutate the `initializeArgs` field of the record stored under
`name` (the orchestrator has always just written that record). -/
def Chain.setInitArgsOf (c : Chain) (name : String) (args : List (String × JsVal)) : Chain :=
  { c with
    contracts := c.contracts.map fun m =>
      m.map fun kv =>
        if kv.1 = name then (kv.1, { kv.2 with initializeArgs := some args }) else kv }

/-- The trace of external calls made during a run: one entry per deploy
binary invocation, argument-builder invocation, remote broadcast, and
post-deploy hook invocation, in execution order. -/
inductive Ev where
  | deployCall (cmd : String)
  | buildArgs (name : String)
  | broadcastCall (op : Operation) (descr : String)
  | postDeployCall (name : String)

/-- Whether a trace event is a deploy binary invocation. -/
def Ev.isDeploy : Ev → Bool
  | .deployCall _ => true
  | _ => false

/-- Model of `String.prototype.trimEnd()` as applied to the deploy
binary's captured stdout: drop trailing whitespace. -/
def jsTrimEnd (s : String) : String :=
  String.mk (s.data.reverse.dropWhile Char.isWhitespace).reverse

/-- The deploy command line assembled on line 116. -/
def mkDeployCmd (options : Options) (rpc passphrase : String) : String :=
  "soroban contract deploy --wasm " ++ options.wasmPath ++ " --source " ++
    options.privateKey ++ " --rpc-url " ++ rpc ++ " --network-passphrase \"" ++
    passphrase ++ "\""

/-- Lines 119 to 126: `let contractAddress = options.address;
if (!contractAddress) { contractAddress = execSync(cmd, ...).trimEnd(); }`.
A falsy (absent or empty) address option invokes the deploy binary and
trims its captured stdout; a non-zero exit propagates as
`DeploymentFailed`. -/
def deployStep (ext : Ext) (options : Options) (cmd : String) :
    Except Err String × List Ev :=
  if strFalsy options.address then
    match ext.deploy cmd with
    | .ok out => (.ok (jsTrimEnd out), [.deployCall cmd])
    | .error msg => (.error (.DeploymentFailed msg), [.deployCall cmd])
  else
    (.ok (options.address.getD ""), [])

/-- Lines 138 to 140: serialize every built argument through
`serializeValue(scValToNative(value))`, keeping names and order. -/
def serializeInitArgs (args : List (String × ScVal)) : Option (List (String × JsVal)) :=
  serializeFields (args.map fun kv => (kv.1, scValToNative kv.2))

/-- Model of `postDeployGateway` (lines 71 to 76): transfer ownership of
the auth-verifier contract to the gateway's address via a remote call.
The source reads `chain.contracts.axelar_auth_verifier.address` and
`chain.contracts.axelar_gateway.address` without optional chaining, so a
missing record raises a TypeError. -/
def postDeployGateway (ext : Ext) (chain : Chain) (wallet : Wallet) (options : Options) :
    Except Err Unit × List Ev :=
  match chain.reg.lookup "axelar_auth_verifier", chain.reg.lookup "axelar_gateway" with
  | some auth, some gw =>
    let operation : Operation :=
      { contractAddress := auth.address
        method := "transfer_ownership"
        args := [ScVal.address gw.address] }
    match ext.broadcast operation wallet chain "Transferred ownership" options with
    | .ok _ => (.ok (), [.broadcastCall operation "Transferred ownership"])
    | .error msg =>
      (.error (.RemoteCallFailed msg), [.broadcastCall operation "Transferred ownership"])
  | _, _ => (.error (.TypeError "reading address of a missing contract record"), [])

/-- Lines 137 to 153 of `processCommand`: build the initialization
arguments, serialize and attach them to the Contract Record, invoke
`initialize` remotely with the typed arguments in builder order, then run
the registered post-deploy hook (only the gateway has one). -/
def initializeStep (ext : Ext) (options : Options) (config : Config) (chain : Chain)
    (contractName contractAddress : String) (wallet : Wallet) :
    Except Err Unit × Chain × List Ev :=
  match getInitializeArgs ext config chain contractName wallet options with
  | (.error e, chain') => (.error e, chain', [.buildArgs contractName])
  | (.ok builtArgs, chain') =>
    match serializeInitArgs builtArgs with
    | none => (.error (.TypeError "serializeValue on null"), chain', [.buildArgs contractName])
    | some serializedArgs =>
      let chain2 := chain'.setInitArgsOf contractName serializedArgs
      let operation : Operation :=
        { contractAddress := contractAddress
          method := "initialize"
          args := builtArgs.map Prod.snd }
      match ext.broadcast operation wallet chain2 "Initialized contract" options with
      | .error msg =>
        (.error (.RemoteCallFailed msg), chain2,
          [.buildArgs contractName, .broadcastCall operation "Initialized contract"])
      | .ok _ =>
        if contractName = "axelar_gateway" then
          ((postDeployGateway ext chain2 wallet options).1, chain2,
            [.buildArgs contractName, .broadcastCall operation "Initialized contract",
              .postDeployCall contractName] ++ (postDeployGateway ext chain2 wallet options).2)
        else
          (.ok (), chain2,
            [.buildArgs contractName, .broadcastCall operation "Initialized contract"])

/-- Model of `processCommand` (deploy-contract.js lines 105 to 154),
returning the run result, the final chain state, and the trace of
external calls: resolve the wallet, ensure the registry exists, deploy
(or adopt a supplied address), record the Contract Record, and, when
initialization was requested, run the initialize-and-post-deploy
sequence. -/
def processCommand (ext : Ext) (options : Options) (config : Config) (chain : Chain) :
    Except Err Unit × Chain × List Ev :=
  let contractName := options.contractName
  let networkPassphrase := ext.getNetworkPassphrase chain.networkType
  let wallet := ext.getWallet chain options
  let chain1 := chain.ensureContracts
  let cmd := mkDeployCmd options chain1.rpc networkPassphrase
  match deployStep ext options cmd with
  | (.error e, tr) => (.error e, chain1, tr)
  | (.ok contractAddress, tr) =>
    let chain2 := chain1.setContract contractName
      { address := contractAddress, deployer := wallet.publicKey }
    if options.initializeFlag then
      ((initializeStep ext options config chain2 contractName contractAddress wallet).1,
       (initializeStep ext options config chain2 contractName contractAddress wallet).2.1,
       tr ++ (initializeStep ext options config chain2 contractName contractAddress wallet).2.2)
    else
      (.ok (), chain2, tr)

/-- The chain state right after the orchestrator records the Contract
Record for the deployed or adopted address `addr` (lines 112 to 131). -/
def recordedChain (ext : Ext) (options : Options) (chain : Chain) (addr : String) : Chain :=
  chain.ensureContracts.setContract options.contractName
    { address := addr, deployer := (ext.getWallet chain options).publicKey }

/-- The deploy command line the orchestrator assembles for a given run. -/
def deployCmdOf (ext : Ext) (options : Options) (chain : Chain) : String :=
  mkDeployCmd options chain.ensureContracts.rpc
    (ext.getNetworkPassphrase chain.networkType)

/-! Registry lookup lemmas. -/

theorem lookup_map_set (m : List (String × ContractRecord)) (k : String) (v : ContractRecord)
    (h : (m.any fun kv => kv.1 == k) = true) :
    (m.map fun kv => if kv.1 = k then (k, v) else kv).lookup k = some v := by
  induction m with
  | nil => simp at h
  | cons kv m ih =>
    obtain ⟨k1, v1⟩ := kv
    rw [List.map_cons]
    split_ifs with hc
    · rw [List.lookup_cons, beq_self_eq_true]
    · have hk : k1 ≠ k := hc
      have h' : (m.any fun kv => kv.1 == k) = true := by
        rcases List.any_eq_true.mp h with ⟨kv, hkv, hp⟩
        rcases List.mem_cons.mp hkv with rfl | hkv'
        · exact absurd (beq_iff_eq.mp hp) hk
        · exact List.any_eq_true.mpr ⟨kv, hkv', hp⟩
      have hfalse : (k == k1) = false := beq_eq_false_iff_ne.mpr fun hh => hk hh.symm
      rw [List.lookup_cons, hfalse]
      exact ih h'

theorem lookup_append_single (m : List (String × ContractRecord)) (k : String)
    (v : ContractRecord) (h : ∀ kv ∈ m, kv.1 ≠ k) :
    (m ++ [(k, v)]).lookup k = some v := by
  induction m with
  | nil =>
    rw [List.nil_append, List.lookup_cons, beq_self_eq_true]
  | cons kv m ih =>
    obtain ⟨k1, v1⟩ := kv
    have h1 : k1 ≠ k := h (k1, v1) (by simp)
    have hfalse : (k == k1) = false := beq_eq_false_iff_ne.mpr fun hh => h1 hh.symm
    rw [List.cons_append, List.lookup_cons, hfalse]
    exact ih fun kv hkv => h kv (by simp [hkv])

theorem lookup_setEntry_self (m : List (String × ContractRecord)) (k : String)
    (v : ContractRecord) : (setEntry m k v).lookup k = some v := by
  unfold setEntry
  by_cases h : (m.any fun kv => kv.1 == k) = true
  · rw [if_pos h]
    exact lookup_map_set m k v h
  · rw [if_neg h]
    refine lookup_append_single m k v ?_
    intro kv hkv hEq
    exact h (List.any_eq_true.mpr ⟨kv, hkv, by simp [hEq]⟩)

theorem lookup_map_update (m : List (String × ContractRecord)) (k : String)
    (f : ContractRecord → ContractRecord) (r : ContractRecord)
    (h : m.lookup k = some r) :
    (m.map fun kv => if kv.1 = k then (kv.1, f kv.2) else kv).lookup k = some (f r) := by
  induction m with
  | nil => simp [List.lookup] at h
  | cons kv m ih =>
    obtain ⟨k1, v1⟩ := kv
    rw [List.map_cons]
    split_ifs with hc
    · have hc' : k1 = k := hc
      subst hc'
      rw [List.lookup_cons, beq_self_eq_true] at h
      have hvr : some v1 = some r := h
      obtain rfl : v1 = r := Option.some_inj.mp hvr
      rw [List.lookup_cons, beq_self_eq_true]
    · have hk : k1 ≠ k := hc
      have hfalse : (k == k1) = false := beq_eq_false_iff_ne.mpr fun hh => hk hh.symm
      rw [List.lookup_cons, hfalse] at h
      rw [List.lookup_cons, hfalse]
      exact ih h

theorem setInitArgsOf_lookup (c : Chain) (cn : String)
    (sargs : List (String × JsVal)) (r : ContractRecord)
    (h : c.reg.lookup cn = some r) :
    (c.setInitArgsOf cn sargs).reg.lookup cn
      = some { r with initializeArgs := some sargs } := by
  rcases hc : c.contracts with _ | m
  · rw [Chain.reg, hc] at h
    simp [List.lookup] at h
  · have h' : m.lookup cn = some r := by rwa [Chain.reg, hc] at h
    have := lookup_map_update m cn
      (fun v => { v with initializeArgs := some sargs }) r h'
    simpa [Chain.setInitArgsOf, Chain.reg, hc] using this

/-! Spec-side apparatus for the serializer claim: a matching hex
deserializer (the spec asks that byte sequences be "recoverable by a
matching deserializer"), the domain of serializable values, the
spec's description of the serialized form, and JSON safety. -/

/-- Spec-side: the numeric value of one lowercase hex digit character. -/
def hexVal (c : Char) : Option Nat := hexDigitChars.indexOf? c

/-- Spec-side: decode a sequence of hex characters, two per byte, high
nibble first; fails on a non-digit or an odd length. -/
def hexDecodeChars : List Char → Option (List Nat)
  | [] => some []
  | c1 :: c2 :: rest =>
    match hexVal c1, hexVal c2, hexDecodeChars rest with
    | some hi, some lo, some bs => some ((16 * hi + lo) :: bs)
    | _, _, _ => none
  | [_] => none

/-- Spec-side: the matching deserializer for hex-encoded byte
sequences. -/
def hexDecode (s : String) : Option (List Nat) := hexDecodeChars s.data

theorem hexVal_hexDigit : ∀ n, n < 16 → hexVal (hexDigit n) = some n := by decide

theorem hexDigit_mem : ∀ n, n < 16 → hexDigit n ∈ hexDigitChars := by decide

theorem hexDecodeChars_flatMap (bs : List Nat) (h : ∀ b ∈ bs, b < 256) :
    hexDecodeChars (bs.flatMap byteToHexChars) = some bs := by
  induction bs with
  | nil => rfl
  | cons b bs ih =>
    have hb : b < 256 := h b (by simp)
    have hhi : b / 16 < 16 := by omega
    have hlo : b % 16 < 16 := by omega
    have h1 := hexVal_hexDigit _ hhi
    have h2 := hexVal_hexDigit _ hlo
    have h3 := ih fun x hx => h x (by simp [hx])
    have hb' : 16 * (b / 16) + b % 16 = b := by omega
    have key : (b :: bs).flatMap byteToHexChars
        = hexDigit (b / 16) :: hexDigit (b % 16) :: bs.flatMap byteToHexChars := by
      simp [byteToHexChars]
    rw [key]
    unfold hexDecodeChars
    rw [h1, h2, h3]
    simp [hb']

/-- Every character of the hex encoding of a byte sequence is a lowercase
hex digit. -/
theorem bytesToHex_lower (bs : List Nat) (h : ∀ b ∈ bs, b < 256) :
    ∀ c ∈ (bytesToHex bs).data, c ∈ hexDigitChars := by
  intro c hc
  have hc' : c ∈ bs.flatMap byteToHexChars := hc
  rcases List.mem_flatMap.1 hc' with ⟨b, hb, hcb⟩
  have hb' : b < 256 := h b hb
  simp only [byteToHexChars, List.mem_cons, List.not_mem_nil, or_false] at hcb
  rcases hcb with rfl | rfl
  · exact hexDigit_mem _ (by omega)
  · exact hexDigit_mem _ (by omega)

/-- The roundtrip the spec asks for: the hex encoding of a byte sequence
decodes back to it. -/
theorem hexDecode_bytesToHex (bs : List Nat) (h : ∀ b ∈ bs, b < 256) :
    hexDecode (bytesToHex bs) = some bs :=
  hexDecodeChars_flatMap bs h

/-- The domain of the serializer claim: acyclic values built from byte
sequences (byte values below 256, as in a Uint8Array), ordered sequences,
large integers, composite records, and the scalars string, boolean and
small number. -/
inductive Serializable : JsVal → Prop where
  | str (s : String) : Serializable (.str s)
  | bool (b : Bool) : Serializable (.bool b)
  | num (n : Int) : Serializable (.num n)
  | bigint (n : Int) : Serializable (.bigint n)
  | bytes (bs : List Nat) : (∀ b ∈ bs, b < 256) → Serializable (.bytes bs)
  | arr (xs : List JsVal) : (∀ x ∈ xs, Serializable x) → Serializable (.arr xs)
  | obj (kvs : List (String × JsVal)) :
      (∀ kv ∈ kvs, Serializable kv.2) → Serializable (.obj kvs)

mutual

/-- Spec-side description of the serialized form, following the spec's
words: a byte sequence becomes a lowercase hexadecimal string recoverable
by the matching deserializer, a large integer becomes its decimal string,
an ordered sequence is mapped element-wise with order preserved, a record
keeps the same keys in the same order with values serialized recursively,
and scalars pass through unchanged. -/
inductive SpecSerialized : JsVal → JsVal → Prop where
  | str (s : String) : SpecSerialized (.str s) (.str s)
  | bool (b : Bool) : SpecSerialized (.bool b) (.bool b)
  | num (n : Int) : SpecSerialized (.num n) (.num n)
  | bigint (n : Int) (s : String) : s = toString n →
      SpecSerialized (.bigint n) (.str s)
  | bytes (bs : List Nat) (s : String) :
      (∀ c ∈ s.data, c ∈ hexDigitChars) → hexDecode s = some bs →
      SpecSerialized (.bytes bs) (.str s)
  | arr (xs ys : List JsVal) : SpecSerializedList xs ys →
      SpecSerialized (.arr xs) (.arr ys)
  | obj (kvs kws : List (String × JsVal)) : SpecSerializedFields kvs kws →
      SpecSerialized (.obj kvs) (.obj kws)

/-- Element-wise serialization of an ordered sequence, order preserved. -/
inductive SpecSerializedList : List JsVal → List JsVal → Prop where
  | nil : SpecSerializedList [] []
  | cons {x y : JsVal} {xs ys : List JsVal} : SpecSerialized x y →
      SpecSerializedList xs ys → SpecSerializedList (x :: xs) (y :: ys)

/-- Field-wise serialization of a record: same keys, same key order,
values serialized recursively. -/
inductive SpecSerializedFields :
    List (String × JsVal) → List (String × JsVal) → Prop where
  | nil : SpecSerializedFields [] []
  | cons (k : String) {v w : JsVal} {kvs kws : List (String × JsVal)} :
      SpecSerialized v w → SpecSerializedFields kvs kws →
      SpecSerializedFields ((k, v) :: kvs) ((k, w) :: kws)

end

/-- JSON-safe values: strings, booleans, numbers, arrays and objects of
JSON-safe values — no byte sequences, bigints, nulls or undefined. -/
inductive JsonSafe : JsVal → Prop where
  | str (s : String) : JsonSafe (.str s)
  | bool (b : Bool) : JsonSafe (.bool b)
  | num (n : Int) : JsonSafe (.num n)
  | arr (xs : List JsVal) : (∀ x ∈ xs, JsonSafe x) → JsonSafe (.arr xs)
  | obj (kvs : List (String × JsVal)) :
      (∀ kv ∈ kvs, JsonSafe kv.2) → JsonSafe (.obj kvs)

theorem serializeList_spec (xs : List JsVal)
    (h : ∀ x ∈ xs, ∃ w, serializeValue x = some w ∧ SpecSerialized x w ∧ JsonSafe w) :
    ∃ ys, serializeList xs = some ys ∧ SpecSerializedList xs ys ∧
      ∀ y ∈ ys, JsonSafe y := by
  induction xs with
  | nil => exact ⟨[], rfl, .nil, by simp⟩
  | cons x xs ih =>
    obtain ⟨w, hw, hs, hj⟩ := h x (by simp)
    obtain ⟨ys, hys, hf, hjs⟩ := ih fun x hx => h x (by simp [hx])
    refine ⟨w :: ys, ?_, .cons hs hf, ?_⟩
    · simp [serializeList, hw, hys]
    · intro y hy
      rcases List.mem_cons.1 hy with rfl | hy
      · exact hj
      · exact hjs y hy

theorem serializeFields_spec (kvs : List (String × JsVal))
    (h : ∀ kv ∈ kvs, ∃ w, serializeValue kv.2 = some w ∧ SpecSerialized kv.2 w ∧ JsonSafe w) :
    ∃ ws, serializeFields kvs = some ws ∧ SpecSerializedFields kvs ws ∧
      ∀ w ∈ ws, JsonSafe w.2 := by
  induction kvs with
  | nil => exact ⟨[], rfl, .nil, by simp⟩
  | cons kv kvs ih =>
    obtain ⟨k, v⟩ := kv
    obtain ⟨w, hw, hs, hj⟩ := h (k, v) (by simp)
    obtain ⟨ws, hws, hf, hjs⟩ := ih fun kv hkv => h kv (by simp [hkv])
    refine ⟨(k, w) :: ws, ?_, .cons k hs hf, ?_⟩
    · simp [serializeFields, hw, hws]
    · intro u hu
      rcases List.mem_cons.1 hu with rfl | hu
      · exact hj
      · exact hjs u hu

/-- C5: for every acyclic value built from byte sequences, ordered
sequences, large integers, composite records, and scalars, `serializeValue`
succeeds and returns a structurally isomorphic JSON-safe value: byte
sequences become lowercase hexadecimal strings (recoverable by the
matching hex deserializer), bigints become decimal strings, sequences are
mapped element-wise with order preserved, records keep the same keys in
order with values serialized recursively, and scalars pass through
unchanged. -/
theorem C5_serializeValue_spec (v : JsVal) (h : Serializable v) :
    ∃ w, serializeValue v = some w ∧ SpecSerialized v w ∧ JsonSafe w := by
  induction h with
  | str s => exact ⟨_, rfl, .str s, .str s⟩
  | bool b => exact ⟨_, rfl, .bool b, .bool b⟩
  | num n => exact ⟨_, rfl, .num n, .num n⟩
  | bigint n => exact ⟨_, rfl, .bigint n _ rfl, .str _⟩
  | bytes bs hb =>
    exact ⟨_, rfl, .bytes bs _ (bytesToHex_lower bs hb) (hexDecode_bytesToHex bs hb), .str _⟩
  | arr xs hx ih =>
    obtain ⟨ys, hys, hf, hjs⟩ := serializeList_spec xs ih
    exact ⟨.arr ys, by simp [serializeValue, hys], .arr xs ys hf, .arr ys hjs⟩
  | obj kvs hk ih =>
    obtain ⟨ws, hws, hf, hjs⟩ := serializeFields_spec kvs ih
    exact ⟨.obj ws, by simp [serializeValue, hws], .obj kvs ws hf, .obj ws hjs⟩

/-- A concrete nested input for the serializer: a record holding a byte
sequence, a large integer, and an ordered sequence of scalars. -/
def C5input : JsVal :=
  .obj [("bytes", .bytes [0, 255, 16]),
        ("big", .bigint 12345678901234567890),
        ("list", .arr [.str "x", .bool true, .num 3])]

theorem C5_serializeValue_spec_witness :
    Serializable C5input ∧
    ∃ w, serializeValue C5input = some w ∧ SpecSerialized C5input w ∧ JsonSafe w := by
  have h : Serializable C5input := by
    refine .obj _ ?_
    intro kv hkv
    simp only [C5input, List.mem_cons, List.not_mem_nil, or_false] at hkv
    rcases hkv with rfl | rfl | rfl
    · exact .bytes _ (by decide)
    · exact .bigint _
    · refine .arr _ ?_
      intro x hx
      simp only [List.mem_cons, List.not_mem_nil, or_false] at hx
      rcases hx with rfl | rfl | rfl
      · exact .str _
      · exact .bool _
      · exact .num _
  exact ⟨h, C5_serializeValue_spec C5input h⟩

/-- C9: `serializeValue` is not total over JSON-safe values: on `null` it
throws (null has `typeof 'object'` and is passed to `Object.entries`,
which raises a TypeError) instead of returning `null` unchanged, while
every other scalar — string, boolean, number, undefined — is returned
unchanged. -/
theorem C9_serializeValue_null :
    serializeValue JsVal.null = none ∧
    serializeValue JsVal.undef = some JsVal.undef ∧
    (∀ s, serializeValue (JsVal.str s) = some (JsVal.str s)) ∧
    (∀ b, serializeValue (JsVal.bool b) = some (JsVal.bool b)) ∧
    (∀ n : Int, serializeValue (JsVal.num n) = some (JsVal.num n)) :=
  ⟨rfl, rfl, fun _ => rfl, fun _ => rfl, fun _ => rfl⟩

/-! Branch equations of the argument builder, and concrete fixtures used
by the witnesses. -/

theorem getInitializeArgs_operators (ext : Ext) (config : Config) (chain : Chain)
    (wallet : Wallet) (options : Options) :
    getInitializeArgs ext config chain "axelar_operators" wallet options =
      (.ok [("owner", ScVal.address wallet.publicKey)], chain) := rfl

theorem getInitializeArgs_auth (ext : Ext) (config : Config) (chain : Chain)
    (wallet : Wallet) (options : Options) :
    getInitializeArgs ext config chain "axelar_auth_verifier" wallet options =
      (.ok [("owner", ScVal.address wallet.publicKey),
            ("previousSignersRetention", ScVal.num 15),
            ("domainSeparator", ScVal.bytes (ext.getDomainSeparator config chain options)),
            ("minimumRotationDelay", ScVal.num 0),
            ("initialSigners", ScVal.vec [ScVal.signers
              { nonce := authNonce ext options
                signers := [{ signer := wallet.publicKey, weight := 1 }]
                threshold := 1 }])], chain) := rfl

theorem getInitializeArgs_gateway (ext : Ext) (config : Config) (chain : Chain)
    (wallet : Wallet) (options : Options) :
    getInitializeArgs ext config chain "axelar_gateway" wallet options =
      match (chain.contracts.bind fun m => m.lookup "axelar_auth_verifier").map
          ContractRecord.address with
      | none =>
        (.error (.MissingDependency "Missing axelar_auth_verifier contract address"), chain)
      | some a =>
        if a = "" then
          (.error (.MissingDependency "Missing axelar_auth_verifier contract address"), chain)
        else
          (.ok [("authAddress", ScVal.address a),
                ("owner", ScVal.address wallet.publicKey)], chain) := rfl

theorem getInitializeArgs_other (ext : Ext) (config : Config) (chain : Chain)
    (wallet : Wallet) (options : Options) (cn : String)
    (h1 : cn ≠ "axelar_gateway") (h2 : cn ≠ "axelar_auth_verifier")
    (h3 : cn ≠ "axelar_operators") :
    getInitializeArgs ext config chain cn wallet options =
      (.error (.UnknownContract cn), chain) := by
  simp [getInitializeArgs, h1, h2, h3]

/-- A benign external environment for the witnesses: every external call
succeeds. -/
def extFix : Ext where
  getWallet := fun _ _ => ⟨"GDWALLET"⟩
  getNetworkPassphrase := fun t => "Passphrase " ++ t
  getDomainSeparator := fun _ _ _ => List.replicate 32 7
  keccakId := fun _ => List.replicate 32 1
  keccakLen := fun _ => by simp
  deploy := fun _ => .ok "CDEPLOYED\n"
  broadcast := fun _ _ _ _ _ => .ok ()

/-- C2: for every chain state whose registry has no auth-verifier record
with an address (no registry, no record, or a record with an empty
address), building arguments for `axelar_gateway` fails with the
MissingDependency error and returns the registry unchanged. -/
theorem C2_gateway_missing_dependency (ext : Ext) (config : Config) (chain : Chain)
    (wallet : Wallet) (options : Options)
    (h : (chain.contracts.bind fun m => m.lookup "axelar_auth_verifier") = none
       ∨ ∃ r, (chain.contracts.bind fun m => m.lookup "axelar_auth_verifier") = some r
           ∧ r.address = "") :
    getInitializeArgs ext config chain "axelar_gateway" wallet options =
      (.error (.MissingDependency "Missing axelar_auth_verifier contract address"), chain) := by
  rw [getInitializeArgs_gateway]
  rcases h with h | ⟨r, hr, he⟩
  · rw [h]
    rfl
  · rw [hr]
    simp [he]

theorem C2_gateway_missing_dependency_witness :
    getInitializeArgs extFix () {} "axelar_gateway" ⟨"GDWALLET"⟩ {} =
      (.error (.MissingDependency "Missing axelar_auth_verifier contract address"), {}) :=
  C2_gateway_missing_dependency extFix () {} ⟨"GDWALLET"⟩ {} (Or.inl rfl)

/-- C3: for every contract identifier outside the supported set, the
argument builder fails with the UnknownContract error, for every chain
state, wallet and options (and leaves the chain unchanged). -/
theorem C3_unknown_contract (ext : Ext) (config : Config) (chain : Chain)
    (wallet : Wallet) (options : Options) (cn : String)
    (h1 : cn ≠ "axelar_gateway") (h2 : cn ≠ "axelar_auth_verifier")
    (h3 : cn ≠ "axelar_operators") :
    getInitializeArgs ext config chain cn wallet options =
      (.error (.UnknownContract cn), chain) :=
  getInitializeArgs_other ext config chain wallet options cn h1 h2 h3

theorem C3_unknown_contract_witness :
    getInitializeArgs extFix () {} "token_manager" ⟨"GDWALLET"⟩ {} =
      (.error (.UnknownContract "token_manager"), {}) :=
  C3_unknown_contract extFix () {} ⟨"GDWALLET"⟩ {} "token_manager"
    (by decide) (by decide) (by decide)

/-- A contract identifier is supported when the argument builder can
succeed on it for some environment, chain state, wallet and options. -/
def SupportedContract (cn : String) : Prop :=
  ∃ (ext : Ext) (config : Config) (chain : Chain) (wallet : Wallet)
    (options : Options) (args : List (String × ScVal)),
    (getInitializeArgs ext config chain cn wallet options).1 = Except.ok args

theorem supportedContract_mem (cn : String) (h : SupportedContract cn) :
    cn = "axelar_gateway" ∨ cn = "axelar_auth_verifier" ∨ cn = "axelar_operators" := by
  by_contra hc
  push_neg at hc
  obtain ⟨h1, h2, h3⟩ := hc
  obtain ⟨ext, config, chain, wallet, options, args, h⟩ := h
  rw [getInitializeArgs_other ext config chain wallet options cn h1 h2 h3] at h
  exact Except.noConfusion h

/-- C1 counterexample: the builder supports three contract identifiers,
not four — there do not exist four pairwise-distinct identifiers on which
the argument builder can succeed. -/
theorem C1_counterexample :
    ¬ ∃ a b c d : String,
      a ≠ b ∧ a ≠ c ∧ a ≠ d ∧ b ≠ c ∧ b ≠ d ∧ c ≠ d ∧
      SupportedContract a ∧ SupportedContract b ∧
      SupportedContract c ∧ SupportedContract d := by
  rintro ⟨a, b, c, d, hab, hac, had, hbc, hbd, hcd, ha, hb, hc, hd⟩
  rcases supportedContract_mem a ha with rfl | rfl | rfl <;>
  rcases supportedContract_mem b hb with rfl | rfl | rfl <;>
  rcases supportedContract_mem c hc with rfl | rfl | rfl <;>
  rcases supportedContract_mem d hd with rfl | rfl | rfl <;>
  first
  | exact hab rfl
  | exact hac rfl
  | exact had rfl
  | exact hbc rfl
  | exact hbd rfl
  | exact hcd rfl

/-- C1 (amended): for all three supported contract identifiers — indeed
for every contract identifier, chain state, wallet and options under
which the builder succeeds — the returned Initialization Argument Set
includes an `owner` entry whose value is the invoking wallet's
address. -/
theorem C1_owner_entry (ext : Ext) (config : Config) (chain : Chain) (cn : String)
    (wallet : Wallet) (options : Options) (args : List (String × ScVal))
    (h : (getInitializeArgs ext config chain cn wallet options).1 = Except.ok args) :
    args.lookup "owner" = some (ScVal.address wallet.publicKey) := by
  by_cases h1 : cn = "axelar_gateway"
  · subst h1
    rcases hm : (chain.contracts.bind fun m => m.lookup "axelar_auth_verifier").map
        ContractRecord.address with _ | a
    · rw [getInitializeArgs_gateway, hm] at h
      simp at h
    · rw [getInitializeArgs_gateway, hm] at h
      by_cases he : a = ""
      · simp [he] at h
      · simp [he] at h
        subst h
        rfl
  · by_cases h2 : cn = "axelar_auth_verifier"
    · subst h2
      rw [getInitializeArgs_auth] at h
      simp at h
      subst h
      rfl
    · by_cases h3 : cn = "axelar_operators"
      · subst h3
        rw [getInitializeArgs_operators] at h
        simp at h
        subst h
        rfl
      · rw [getInitializeArgs_other ext config chain wallet options cn h1 h2 h3] at h
        exact Except.noConfusion h

theorem C1_owner_entry_witness :
    ([("owner", ScVal.address "GDWALLET")] : List (String × ScVal)).lookup "owner"
      = some (ScVal.address "GDWALLET") :=
  C1_owner_entry extFix () {} "axelar_operators" ⟨"GDWALLET"⟩ {}
    [("owner", ScVal.address "GDWALLET")] rfl

/-- C4 (amended): for every wallet and options, the Signer Set built for
`axelar_auth_verifier` has exactly one signer — the wallet's public key
with weight 1 — a threshold of 1, and a 32-byte nonce; the nonce is the
keccak256 `id` hash of `options.nonce` when that option is supplied and
non-empty, and all 32 zero bytes when it is absent or empty. -/
theorem C4_auth_signer_set (ext : Ext) (config : Config) (chain : Chain)
    (wallet : Wallet) (options : Options) :
    ∃ (args : List (String × ScVal)) (ws : WeightedSigners),
      (getInitializeArgs ext config chain "axelar_auth_verifier" wallet options).1
        = Except.ok args ∧
      args.lookup "initialSigners" = some (ScVal.vec [ScVal.signers ws]) ∧
      ws.signers = [{ signer := wallet.publicKey, weight := 1 }] ∧
      ws.threshold = 1 ∧
      ws.nonce.length = 32 ∧
      (∀ s, options.nonce = some s → s ≠ "" → ws.nonce = ext.keccakId s) ∧
      ((options.nonce = none ∨ options.nonce = some "") →
        ws.nonce = List.replicate 32 0) := by
  refine ⟨_, _, congrArg Prod.fst (getInitializeArgs_auth ext config chain wallet options),
    rfl, rfl, rfl, ?_, ?_, ?_⟩
  · rcases hn : options.nonce with _ | s
    · simp [authNonce, hn]
    · by_cases he : s = "" <;> simp [authNonce, hn, he, ext.keccakLen]
  · intro s hs hne
    simp [authNonce, hs, hne]
  · rintro (hn | hn) <;> simp [authNonce, hn]

theorem C4_auth_signer_set_witness :
    ∃ (args : List (String × ScVal)) (ws : WeightedSigners),
      (getInitializeArgs extFix () {} "axelar_auth_verifier" ⟨"GDWALLET"⟩
          { nonce := some "bootstrap" }).1 = Except.ok args ∧
      args.lookup "initialSigners" = some (ScVal.vec [ScVal.signers ws]) ∧
      ws.signers = [{ signer := "GDWALLET", weight := 1 }] ∧
      ws.threshold = 1 ∧
      ws.nonce.length = 32 ∧
      (∀ s, (({ nonce := some "bootstrap" } : Options)).nonce = some s → s ≠ "" →
        ws.nonce = extFix.keccakId s) ∧
      (((({ nonce := some "bootstrap" } : Options)).nonce = none ∨
          (({ nonce := some "bootstrap" } : Options)).nonce = some "") →
        ws.nonce = List.replicate 32 0) :=
  C4_auth_signer_set extFix () {} ⟨"GDWALLET"⟩ { nonce := some "bootstrap" }

/-- C4 counterexample: with the nonce option supplied as the empty string,
the built Signer Set's nonce is the 32 zero bytes, not the keccak256 hash
of the supplied string. -/
theorem C4_counterexample :
    (({ nonce := some "" } : Options)).nonce = some "" ∧
    (getInitializeArgs extFix () {} "axelar_auth_verifier" ⟨"GDWALLET"⟩
        { nonce := some "" }).1
      = Except.ok
          [("owner", ScVal.address "GDWALLET"),
           ("previousSignersRetention", ScVal.num 15),
           ("domainSeparator", ScVal.bytes (List.replicate 32 7)),
           ("minimumRotationDelay", ScVal.num 0),
           ("initialSigners", ScVal.vec [ScVal.signers
             { nonce := List.replicate 32 0
               signers := [{ signer := "GDWALLET", weight := 1 }]
               threshold := 1 }])] ∧
    List.replicate 32 0 ≠ extFix.keccakId "" := by
  refine ⟨rfl, rfl, ?_⟩
  decide

/-! Orchestrator lemmas. -/

theorem getInitializeArgs_snd (ext : Ext) (config : Config) (chain : Chain)
    (cn : String) (wallet : Wallet) (options : Options) :
    (getInitializeArgs ext config chain cn wallet options).2 = chain := by
  by_cases h1 : cn = "axelar_gateway"
  · subst h1
    rcases hm : Option.map ContractRecord.address
        (chain.contracts.bind fun m => List.lookup "axelar_auth_verifier" m) with _ | a <;>
      (simp only [getInitializeArgs, hm]; split_ifs <;> rfl)
  · by_cases h2 : cn = "axelar_auth_verifier"
    · subst h2
      simp [getInitializeArgs]
    · by_cases h3 : cn = "axelar_operators"
      · subst h3
        simp [getInitializeArgs]
      · simp [getInitializeArgs, h1, h2, h3]

theorem deployStep_adopt (ext : Ext) (options : Options) (cmd : String) (a : String)
    (h1 : options.address = some a) (h2 : a ≠ "") :
    deployStep ext options cmd = (.ok a, []) := by
  have hf : strFalsy options.address = false := by
    rw [h1]
    unfold strFalsy
    simpa using h2
  unfold deployStep
  rw [hf]
  simp [h1]

theorem deployStep_deploy (ext : Ext) (options : Options) (cmd : String) (out : String)
    (h1 : strFalsy options.address = true) (h2 : ext.deploy cmd = .ok out) :
    deployStep ext options cmd = (.ok (jsTrimEnd out), [.deployCall cmd]) := by
  unfold deployStep
  rw [h1, h2]
  rfl

theorem processCommand_adopt (ext : Ext) (options : Options) (config : Config)
    (chain : Chain) (a : String) (h1 : options.address = some a) (h2 : a ≠ "") :
    processCommand ext options config chain =
      if options.initializeFlag then
        ((initializeStep ext options config (recordedChain ext options chain a)
            options.contractName a (ext.getWallet chain options)).1,
         (initializeStep ext options config (recordedChain ext options chain a)
            options.contractName a (ext.getWallet chain options)).2.1,
         (initializeStep ext options config (recordedChain ext options chain a)
            options.contractName a (ext.getWallet chain options)).2.2)
      else
        (.ok (), recordedChain ext options chain a, []) := by
  simp only [processCommand]
  rw [deployStep_adopt ext options _ a h1 h2]
  rfl

theorem processCommand_deploy (ext : Ext) (options : Options) (config : Config)
    (chain : Chain) (out : String)
    (h1 : strFalsy options.address = true)
    (h2 : ext.deploy (deployCmdOf ext options chain) = .ok out) :
    processCommand ext options config chain =
      if options.initializeFlag then
        ((initializeStep ext options config
            (recordedChain ext options chain (jsTrimEnd out))
            options.contractName (jsTrimEnd out) (ext.getWallet chain options)).1,
         (initializeStep ext options config
            (recordedChain ext options chain (jsTrimEnd out))
            options.contractName (jsTrimEnd out) (ext.getWallet chain options)).2.1,
         Ev.deployCall (deployCmdOf ext options chain) ::
           (initializeStep ext options config
             (recordedChain ext options chain (jsTrimEnd out))
             options.contractName (jsTrimEnd out) (ext.getWallet chain options)).2.2)
      else
        (.ok (), recordedChain ext options chain (jsTrimEnd out),
          [Ev.deployCall (deployCmdOf ext options chain)]) := by
  simp only [deployCmdOf] at h2
  simp only [processCommand]
  rw [deployStep_deploy ext options _ out h1 h2]
  rfl

/-- `processCommand` characterized by the outcome of its deploy-or-adopt
step: whenever that step yields an address (by invoking the deploy binary
or by adopting a supplied one), the run records the Contract Record and
proceeds with the initialize sequence exactly when it was requested. -/
theorem processCommand_ok_of_deployStep (ext : Ext) (options : Options) (config : Config)
    (chain : Chain) (a : String) (tr0 : List Ev)
    (hdep : deployStep ext options (deployCmdOf ext options chain) = (.ok a, tr0)) :
    processCommand ext options config chain =
      if options.initializeFlag then
        ((initializeStep ext options config (recordedChain ext options chain a)
            options.contractName a (ext.getWallet chain options)).1,
         (initializeStep ext options config (recordedChain ext options chain a)
            options.contractName a (ext.getWallet chain options)).2.1,
         tr0 ++ (initializeStep ext options config (recordedChain ext options chain a)
            options.contractName a (ext.getWallet chain options)).2.2)
      else
        (.ok (), recordedChain ext options chain a, tr0) := by
  simp only [deployCmdOf] at hdep
  simp only [processCommand]
  rw [hdep]
  rfl

theorem postDeployGateway_no_deploy (ext : Ext) (chain : Chain) (wallet : Wallet)
    (options : Options) :
    ∀ e ∈ (postDeployGateway ext chain wallet options).2, e.isDeploy = false := by
  intro e he
  simp only [postDeployGateway] at he
  split at he
  · split at he <;> simp_all [Ev.isDeploy]
  · simp_all

theorem initializeStep_no_deploy (ext : Ext) (options : Options) (config : Config)
    (chain : Chain) (cn addr : String) (wallet : Wallet) :
    ∀ e ∈ (initializeStep ext options config chain cn addr wallet).2.2,
      e.isDeploy = false := by
  intro e he
  simp only [initializeStep] at he
  split at he
  · simp at he
    subst he
    rfl
  · split at he
    · simp at he
      subst he
      rfl
    · split at he
      · simp at he
        rcases he with rfl | rfl <;> rfl
      · split at he
        · rcases List.mem_append.mp he with hl | hr
          · simp at hl
            rcases hl with rfl | rfl | rfl <;> rfl
          · exact postDeployGateway_no_deploy _ _ _ _ e hr
        · simp at he
          rcases he with rfl | rfl <;> rfl

theorem initializeStep_lookup (ext : Ext) (options : Options) (config : Config)
    (chain : Chain) (cn addr : String) (wallet : Wallet) (r : ContractRecord)
    (h : chain.reg.lookup cn = some r) :
    ∃ ia, ((initializeStep ext options config chain cn addr wallet).2.1).reg.lookup cn
        = some { address := r.address, deployer := r.deployer, initializeArgs := ia } := by
  have hsnd := getInitializeArgs_snd ext config chain cn wallet options
  simp only [initializeStep]
  rcases hg : getInitializeArgs ext config chain cn wallet options with ⟨res, chain'⟩
  rw [hg] at hsnd
  have hc : chain' = chain := hsnd
  subst hc
  cases res with
  | error e => exact ⟨r.initializeArgs, h⟩
  | ok builtArgs =>
    dsimp only
    rcases hs : serializeInitArgs builtArgs with _ | sargs
    · exact ⟨r.initializeArgs, h⟩
    · dsimp only
      have hl := setInitArgsOf_lookup chain' cn sargs r h
      rcases hb : ext.broadcast
          { contractAddress := addr, method := "initialize",
            args := builtArgs.map Prod.snd } wallet
          (chain'.setInitArgsOf cn sargs) "Initialized contract" options with msg | u
      · exact ⟨some sargs, hl⟩
      · by_cases hgw : cn = "axelar_gateway"
        · rw [if_pos hgw]
          exact ⟨some sargs, hl⟩
        · rw [if_neg hgw]
          exact ⟨some sargs, hl⟩

/-- An external environment whose remote broadcast always fails. -/
def extBFail : Ext :=
  { extFix with broadcast := fun _ _ _ _ _ => .error "broadcast rejected" }

/-- C6 (amended): whenever the `--address` option is supplied with a
non-empty value, the deploy binary is never invoked and the Contract
Record recorded under the requested identifier has the supplied address
and the wallet's public key as deployer.  (An empty supplied value is
falsy in JavaScript and takes the deploy path instead — see the
counterexample.) -/
theorem C6_adopt_address (ext : Ext) (options : Options) (config : Config)
    (chain : Chain) (a : String)
    (h1 : options.address = some a) (h2 : a ≠ "") :
    (∀ e ∈ (processCommand ext options config chain).2.2, e.isDeploy = false) ∧
    ∃ r, ((processCommand ext options config chain).2.1).reg.lookup options.contractName
        = some r ∧ r.address = a ∧ r.deployer = (ext.getWallet chain options).publicKey := by
  rw [processCommand_adopt ext options config chain a h1 h2]
  have hrec : (recordedChain ext options chain a).reg.lookup options.contractName
      = some { address := a, deployer := (ext.getWallet chain options).publicKey } :=
    lookup_setEntry_self _ _ _
  by_cases hi : options.initializeFlag
  · rw [if_pos hi]
    constructor
    · intro e he
      exact initializeStep_no_deploy ext options config _ _ _ _ e he
    · obtain ⟨ia, hia⟩ := initializeStep_lookup ext options config
        (recordedChain ext options chain a) options.contractName a
        (ext.getWallet chain options) _ hrec
      exact ⟨_, hia, rfl, rfl⟩
  · rw [if_neg hi]
    exact ⟨by simp, _, hrec, rfl, rfl⟩

/-- The options of the C6 counterexample: the address option is supplied
but empty. -/
def C6opts : Options := { contractName := "axelar_operators", address := some "" }

/-- C6 counterexample: with `--address ""` — the option supplied, its
value empty — the deploy binary is still invoked (the check is JavaScript
truthiness, not presence) and the recorded address is the binary's
trimmed stdout, not the supplied value. -/
theorem C6_counterexample :
    C6opts.address = some "" ∧
    ((processCommand extFix C6opts () {}).2.2.any Ev.isDeploy) = true ∧
    ((processCommand extFix C6opts () {}).2.1).reg.lookup "axelar_operators"
      = some { address := "CDEPLOYED", deployer := "GDWALLET",
               initializeArgs := none } := by
  refine ⟨rfl, rfl, rfl⟩

/-- The options of the C6 witness: a non-empty supplied address. -/
def C6wopts : Options := { contractName := "axelar_operators", address := some "CEXIST" }

theorem C6_adopt_address_witness :
    (∀ e ∈ (processCommand extFix C6wopts () {}).2.2, e.isDeploy = false) ∧
    ∃ r, ((processCommand extFix C6wopts () {}).2.1).reg.lookup "axelar_operators"
        = some r ∧ r.address = "CEXIST" ∧ r.deployer = "GDWALLET" :=
  C6_adopt_address extFix C6wopts () {} "CEXIST" rfl (by decide)

/-- C7: in every run with initialization requested — on the deploy path
and on the adoption path alike, captured by the outcome of the
deploy-or-adopt step — the serialized initialization arguments are
attached to the Contract Record strictly before the remote initialize
call, so when the broadcast fails the run aborts with RemoteCallFailed
while the registry still holds the recorded address, deployer and
initializeArgs — no rollback. -/
theorem C7_args_attached_before_broadcast (ext : Ext) (options : Options)
    (config : Config) (chain : Chain) (a msg : String) (tr0 : List Ev)
    (builtArgs : List (String × ScVal)) (sargs : List (String × JsVal))
    (h1 : options.initializeFlag = true)
    (hdep : deployStep ext options (deployCmdOf ext options chain) = (.ok a, tr0))
    (hbuild : getInitializeArgs ext config (recordedChain ext options chain a)
        options.contractName (ext.getWallet chain options) options
        = (.ok builtArgs, recordedChain ext options chain a))
    (hser : serializeInitArgs builtArgs = some sargs)
    (hbc : ext.broadcast
        { contractAddress := a, method := "initialize", args := builtArgs.map Prod.snd }
        (ext.getWallet chain options)
        ((recordedChain ext options chain a).setInitArgsOf options.contractName sargs)
        "Initialized contract" options
        = .error msg) :
    processCommand ext options config chain
      = (.error (.RemoteCallFailed msg),
         (recordedChain ext options chain a).setInitArgsOf options.contractName sargs,
         tr0 ++
           [.buildArgs options.contractName,
            .broadcastCall
              { contractAddress := a, method := "initialize",
                args := builtArgs.map Prod.snd } "Initialized contract"]) ∧
    ((recordedChain ext options chain a).setInitArgsOf options.contractName
        sargs).reg.lookup options.contractName
      = some { address := a, deployer := (ext.getWallet chain options).publicKey,
               initializeArgs := some sargs } := by
  have hstep : initializeStep ext options config (recordedChain ext options chain a)
      options.contractName a (ext.getWallet chain options)
      = (.error (.RemoteCallFailed msg),
         (recordedChain ext options chain a).setInitArgsOf options.contractName sargs,
         [.buildArgs options.contractName,
          .broadcastCall
            { contractAddress := a, method := "initialize",
              args := builtArgs.map Prod.snd } "Initialized contract"]) := by
    simp only [initializeStep, hbuild, hser, hbc]
  constructor
  · rw [processCommand_ok_of_deployStep ext options config chain a tr0 hdep,
      if_pos h1, hstep]
  · have hrec : (recordedChain ext options chain a).reg.lookup options.contractName
        = some { address := a, deployer := (ext.getWallet chain options).publicKey } :=
      lookup_setEntry_self _ _ _
    exact setInitArgsOf_lookup _ _ _ _ hrec

/-- The options of the C7 witness: initialization requested, no address
supplied, so the run takes the deploy path. -/
def C7opts : Options := { contractName := "axelar_operators", initializeFlag := true }

theorem C7_args_attached_before_broadcast_witness :
    processCommand extBFail C7opts () {}
      = (.error (.RemoteCallFailed "broadcast rejected"),
         (recordedChain extBFail C7opts {} "CDEPLOYED").setInitArgsOf "axelar_operators"
           [("owner", JsVal.str "GDWALLET")],
         [.deployCall (deployCmdOf extBFail C7opts {}),
          .buildArgs "axelar_operators",
          .broadcastCall
            { contractAddress := "CDEPLOYED", method := "initialize",
              args := [ScVal.address "GDWALLET"] } "Initialized contract"]) :=
  (C7_args_attached_before_broadcast extBFail C7opts () {} "CDEPLOYED"
    "broadcast rejected" [.deployCall (deployCmdOf extBFail C7opts {})]
    [("owner", ScVal.address "GDWALLET")] [("owner", JsVal.str "GDWALLET")]
    rfl rfl rfl rfl rfl).1

/-- C8: deploying `axelar_operators` with initialization requested and no
address option, with the deploy binary succeeding, records a Contract
Record whose address is the binary's captured stdout line (trailing
whitespace trimmed), whose deployer is the wallet's public key, and whose
initializeArgs is exactly the single-entry mapping owner ↦ wallet
address. -/
theorem C8_operators_run (ext : Ext) (options : Options) (config : Config)
    (chain : Chain) (out : String)
    (h1 : options.contractName = "axelar_operators")
    (h2 : options.initializeFlag = true)
    (h3 : options.address = none)
    (h4 : ∀ cmd, ext.deploy cmd = .ok out) :
    ((processCommand ext options config chain).2.1).reg.lookup options.contractName
      = some { address := jsTrimEnd out,
               deployer := (ext.getWallet chain options).publicKey,
               initializeArgs := some
                 [("owner", JsVal.str (ext.getWallet chain options).publicKey)] } := by
  have hfal : strFalsy options.address = true := by rw [h3]; rfl
  rw [processCommand_deploy ext options config chain out hfal (h4 _), if_pos h2]
  dsimp only
  have hbuild : getInitializeArgs ext config
      (recordedChain ext options chain (jsTrimEnd out)) "axelar_operators"
      (ext.getWallet chain options) options
      = (.ok [("owner", ScVal.address (ext.getWallet chain options).publicKey)],
         recordedChain ext options chain (jsTrimEnd out)) :=
    getInitializeArgs_operators ext config _ (ext.getWallet chain options) options
  have hser : serializeInitArgs
      [("owner", ScVal.address (ext.getWallet chain options).publicKey)]
      = some [("owner", JsVal.str (ext.getWallet chain options).publicKey)] := rfl
  have hchain : (initializeStep ext options config
      (recordedChain ext options chain (jsTrimEnd out)) options.contractName
      (jsTrimEnd out) (ext.getWallet chain options)).2.1
      = (recordedChain ext options chain (jsTrimEnd out)).setInitArgsOf
          options.contractName
          [("owner", JsVal.str (ext.getWallet chain options).publicKey)] := by
    simp only [initializeStep, h1, hbuild, hser]
    split <;> rfl
  rw [hchain]
  have hrec : (recordedChain ext options chain (jsTrimEnd out)).reg.lookup
      options.contractName
      = some { address := jsTrimEnd out,
               deployer := (ext.getWallet chain options).publicKey } :=
    lookup_setEntry_self _ _ _
  exact setInitArgsOf_lookup _ options.contractName
    [("owner", JsVal.str (ext.getWallet chain options).publicKey)] _ hrec

/-- The options of the C8 witness. -/
def C8opts : Options := { contractName := "axelar_operators", initializeFlag := true }

theorem C8_operators_run_witness :
    ((processCommand extFix C8opts () {}).2.1).reg.lookup "axelar_operators"
      = some { address := jsTrimEnd "CDEPLOYED\n", deployer := "GDWALLET",
               initializeArgs := some [("owner", JsVal.str "GDWALLET")] } :=
  C8_operators_run extFix C8opts () {} "CDEPLOYED\n" rfl rfl rfl (fun _ => rfl)

/-- C10: with an unrecognized contract identifier and initialization not
requested, the run succeeds, the address and deployer are recorded in the
registry under that identifier with no initializeArgs, and the trace
holds at most the deploy binary call — no argument building, no
initialize broadcast, no post-deploy hook.  The UnknownContract failure
is therefore reachable only when initialization is requested. -/
theorem C10_no_initialize_skips_builder (ext : Ext) (options : Options)
    (config : Config) (chain : Chain) (out : String)
    (h1 : options.contractName ∉
      ["axelar_gateway", "axelar_auth_verifier", "axelar_operators"])
    (h2 : options.initializeFlag = false)
    (h3 : ∀ cmd, ext.deploy cmd = .ok out) :
    (processCommand ext options config chain).1 = .ok () ∧
    ((processCommand ext options config chain).2.1).reg.lookup options.contractName
      = some { address := if strFalsy options.address then jsTrimEnd out
                          else options.address.getD "",
               deployer := (ext.getWallet chain options).publicKey,
               initializeArgs := none } ∧
    (∀ e ∈ (processCommand ext options config chain).2.2,
      e = Ev.deployCall (deployCmdOf ext options chain)) := by
  rcases hfal : strFalsy options.address with _ | _
  · rcases ha : options.address with _ | a
    · rw [ha] at hfal
      exact absurd hfal (by simp [strFalsy])
    · have hne : a ≠ "" := by
        intro hEq
        subst hEq
        rw [ha] at hfal
        simp [strFalsy] at hfal
      rw [processCommand_adopt ext options config chain a ha hne,
        if_neg (by simp [h2])]
      refine ⟨rfl, ?_, by simp⟩
      simp only [hfal, ha, Bool.false_eq_true, if_false, Option.getD_some]
      exact lookup_setEntry_self _ _ _
  · rw [processCommand_deploy ext options config chain out hfal (h3 _),
      if_neg (by simp [h2])]
    refine ⟨rfl, ?_, ?_⟩
    · simp only [hfal, if_true]
      exact lookup_setEntry_self _ _ _
    · intro e he
      simpa using he

/-- The options of the C10 witness. -/
def C10opts : Options := { contractName := "token_manager" }

theorem C10_no_initialize_skips_builder_witness :
    (processCommand extFix C10opts () {}).1 = .ok () ∧
    ((processCommand extFix C10opts () {}).2.1).reg.lookup "token_manager"
      = some { address := if strFalsy C10opts.address then jsTrimEnd "CDEPLOYED\n"
                          else C10opts.address.getD "",
               deployer := "GDWALLET", initializeArgs := none } ∧
    (∀ e ∈ (processCommand extFix C10opts () {}).2.2,
      e = Ev.deployCall (deployCmdOf extFix C10opts {})) :=
  C10_no_initialize_skips_builder extFix C10opts () {} "CDEPLOYED\n"
    (by decide) rfl (fun _ => rfl)

end SorobanDeploy
